import Mathlib

/-!
Shallow embedding of the StackVM parser front-end (src/src/parser/nodes.ts
and the unnamed parser file) together with proofs about the properties of
its scope model and its tree transformation pass.

Conventions of the embedding:
* TypeScript string-union types (`SVScopeDefinitionKindType`, operator sets)
  are modelled as `String`, exactly as the code compares them (`===`).
* `Map<string, SVScopeDefinition>` is modelled as an insertion-ordered
  association list; `Map.set` on an existing key replaces the value in
  place and leaves `size` unchanged, exactly as JavaScript `Map` does.
* `assert(cond, msg)` and `throw new Error(msg)` are modelled by returning
  `Except String _`; an `.error` is a fatal failure carrying the message.
* The cyclic back-reference `SVScopeDefinition.scope` is modelled by the
  owning scope's numeric id (`scopeId`), the only acyclic content it has.
-/

namespace StackVM

/-- Runtime JavaScript values that can reach `SVLiteral`'s constructor
(`value: any`).  Numbers are modelled as integers, which covers every
literal appearing in the claims. -/
inductive JSValue where
  | str  (s : String)
  | num  (n : Int)
  | bool (b : Bool)
  | undef
deriving DecidableEq, Repr

/-- JavaScript `typeof` on the modelled values. -/
def typeofJS : JSValue → String
  | .str _  => "string"
  | .num _  => "number"
  | .bool _ => "boolean"
  | .undef  => "undefined"

/-- Embedding of `SVScopeDefinition` (nodes.ts): the binding record stored
in a scope's `variables` map.  `kind` is one of "let" | "var" | "const";
`scopeId` stands for the `scope` back-reference. -/
structure SVScopeDefinition where
  id : Nat
  kind : String
  constant : Bool
  scopeId : Nat
deriving DecidableEq, Repr

/-- Entries of the modelled `Map<string, SVScopeDefinition>`. -/
abbrev VarMap := List (String × SVScopeDefinition)

/-- Model of `Map.prototype.has`. -/
def mapHas (m : VarMap) (k : String) : Bool :=
  m.any (fun p => p.1 == k)

/-- Model of `Map.prototype.get` (returning `undefined` as `none`). -/
def mapGet (m : VarMap) (k : String) : Option SVScopeDefinition :=
  (m.find? (fun p => p.1 == k)).map Prod.snd

/-- Model of `Map.prototype.set`: replaces the value of an existing key in
place (keeping its insertion position), otherwise appends a new entry. -/
def mapSet (m : VarMap) (k : String) (v : SVScopeDefinition) : VarMap :=
  if mapHas m k then
    m.map (fun p => if p.1 == k then (k, v) else p)
  else
    m ++ [(k, v)]

/-- Model of `Map.prototype.size` (keys are unique by construction, since
maps are only ever grown through `mapSet`). -/
def mapSize (m : VarMap) : Nat := m.length

/-- Embedding of `SVScope` (nodes.ts): an id, an optional parent and the
`variables` map. -/
inductive SVScope where
  | mk (id : Nat) (parent : Option SVScope) (vars : VarMap)

/-- Field accessor for `SVScope.id`. -/
def SVScope.id : SVScope → Nat
  | .mk i _ _ => i

/-- Field accessor for `SVScope.parent`. -/
def SVScope.parent : SVScope → Option SVScope
  | .mk _ p _ => p

/-- Field accessor for `SVScope.vars`. -/
def SVScope.vars : SVScope → VarMap
  | .mk _ _ v => v

/-- Embedding of `SVScope.hasVariable`:
`return this.vars.has(name);`. -/
def SVScope.hasVariable (s : SVScope) (name : String) : Bool :=
  mapHas s.vars name

/-- Embedding of `SVScope.hasVariableInParentRoot`:
`return this.vars.has(name) || !!(this.parent && this.parent.hasVariable(name));`
Note that the code consults only the immediate parent (`hasVariable`), not
the full chain. -/
def SVScope.hasVariableInParentRoot (s : SVScope) (name : String) : Bool :=
  mapHas s.vars name ||
    (match s.parent with
     | some p => p.hasVariable name
     | none => false)

/-- Embedding of `SVScope.getVariable`: `assert(definition, name + " is not
defined."); return definition!;`. -/
def SVScope.getVariable (s : SVScope) (name : String) : Except String SVScopeDefinition :=
  match mapGet s.vars name with
  | some definition => .ok definition
  | none => .error (name ++ " is not defined.")

/-- Embedding of `SVScope.getVariableInParentRoot`: check this scope, then
recurse into the parent, else `throw new Error(name + " is not defined.")`. -/
def SVScope.getVariableInParentRoot : SVScope → String → Except String SVScopeDefinition
  | .mk i parent vars, name =>
    if (SVScope.mk i parent vars).hasVariable name then
      (SVScope.mk i parent vars).getVariable name
    else
      match parent with
      | some p => p.getVariableInParentRoot name
      | none => .error (name ++ " is not defined.")

/-- Embedding of `SVScope.defineVariable`:
`assert(!isDefined || kind === "var", name + " is already defined.")`, then
store a definition whose id is `this.vars.size`.  Returns the created
definition together with the updated scope. -/
def SVScope.defineVariable (s : SVScope) (name : String) (kind : String)
    (constant : Bool) : Except String (SVScopeDefinition × SVScope) :=
  let isDefined := mapHas s.vars name
  if !isDefined || kind == "var" then
    let definition : SVScopeDefinition :=
      ⟨mapSize s.vars, kind, constant, s.id⟩
    .ok (definition, .mk s.id s.parent (mapSet s.vars name definition))
  else
    .error (name ++ " is already defined.")

/-- The chain of scopes reachable from `s` through `parent`, innermost
first (used to state properties of the chained operations). -/
def chainScopes : SVScope → List SVScope
  | .mk i parent vars =>
    SVScope.mk i parent vars ::
      (match parent with
       | some p => chainScopes p
       | none => [])

/-- Babel binding patterns as far as the pass inspects them: it only
distinguishes `Identifier` patterns from everything else
(`declarator.id.type !== 'Identifier'`). -/
inductive Pat where
  | ident (name : String)
  | other
deriving DecidableEq, Repr

/-- Embedding of the Babel source tree (`@babel/types` `Node`) restricted
to the shapes the pass dispatches on.  `unsupported` stands for every node
kind outside the `switch`'s cases; the pass never looks inside such a
node, so it is modelled as opaque. -/
inductive Node where
  | stringLit (value : String)
  | numericLit (value : Int)
  | booleanLit (value : Bool)
  | binaryExpr (left right : Node) (operator : String)
  | logicalExpr (left right : Node) (operator : String)
  | unaryExpr (argument : Node) (operator : String)
  | arrayExpr (elements : List Node)
  | exprStmt (expression : Node)
  | identifier (name : String)
  | varDecl (kind : String) (declarations : List (Pat × Option Node))
  | unsupported (tag : String)
deriving Repr

/-- Embedding of the `SVNode` class hierarchy (nodes.ts).  Child fields
that the parser fills through the unchecked non-null assertion
`this.scanNode(x, false)!` are modelled as `Option SVNode`, because the
scan returns `undefined` on unsupported kinds and the value is stored as
is.  A `variableDefinition` entry is `(name, constant, value)`, exactly
the object literal the parser pushes. -/
inductive SVNode where
  | literal (valueType : String) (value : JSValue)
  | binaryExpression (left right : Option SVNode) (operator : String)
  | logicalExpression (left right : Option SVNode) (operator : String)
  | unaryExpression (arg : Option SVNode) (operator : String)
  | arrayExpression (elements : List (Option SVNode))
  | callExpression (callee : Option SVNode) (args : List (Option SVNode))
  | memberExpression (object : Option SVNode) (property : Option SVNode)
  | assignmentExpression (left right : Option SVNode) (operator : String)
      (assignmentType : String)
  | identifier (name : String) (isGlobal : Bool)
  | variableDefinition (vars : List (String × Bool × Option SVNode))
deriving Repr

/-- Discriminant tag of a node, as set by each subclass constructor through
`super(...)` (the `nodeType` field). -/
def SVNode.nodeType : SVNode → String
  | .literal .. => "Literal"
  | .binaryExpression .. => "BinaryExpression"
  | .logicalExpression .. => "LogicalExpression"
  | .unaryExpression .. => "UnaryExpression"
  | .arrayExpression .. => "ArrayExpression"
  | .callExpression .. => "CallExpression"
  | .memberExpression .. => "MemberExpression"
  | .assignmentExpression .. => "AssignmentExpression"
  | .identifier .. => "Identifier"
  | .variableDefinition .. => "VariableDefinition"

/-- Embedding of the `SVLiteral` constructor (nodes.ts): a `switch` on the
declared `valueType` runs a `typeof` assertion for the matching kind
before the value is stored.  A `valueType` outside the three cases would
match no case (the `switch` has no default) and store unchecked, but the
TypeScript union type makes that unreachable. -/
def SVLiteral.construct (valueType : String) (value : JSValue) :
    Except String SVNode :=
  if valueType == "string" then
    if typeofJS value == "string" then .ok (.literal valueType value)
    else .error "The value of a string literal node must be of type string"
  else if valueType == "number" then
    if typeofJS value == "number" then .ok (.literal valueType value)
    else .error "The value of a numeric literal node must be of type number"
  else if valueType == "boolean" then
    if typeofJS value == "boolean" then .ok (.literal valueType value)
    else .error "The value of a boolean literal node must be of type boolean"
  else
    .ok (.literal valueType value)

/-- Embedding of the `SVAssignmentExpression` constructor: the derived
`assignmentType` classification is computed once, at construction. -/
def SVAssignmentExpression.construct (left right : Option SVNode)
    (operator : String) : SVNode :=
  .assignmentExpression left right operator
    (if (left.map SVNode.nodeType).getD "undefined" == "MemberExpression"
     then "property" else "identifier")

/-- Auxiliary `sizeOf` fact used for the termination of `scanChild` (the
source reverses the element array before iterating over it). -/
theorem sizeOfAppendNode (l1 l2 : List Node) :
    sizeOf (l1 ++ l2) + 1 = sizeOf l1 + sizeOf l2 := by
  induction l1 with
  | nil => simp only [List.nil_append, List.nil.sizeOf_spec]; omega
  | cons a t ih => simp only [List.cons_append, List.cons.sizeOf_spec]; omega

/-- Reversing a list of nodes does not change its `sizeOf`. -/
theorem sizeOfReverseNode (l : List Node) : sizeOf l.reverse = sizeOf l := by
  induction l with
  | nil => rfl
  | cons a t ih =>
    have h := sizeOfAppendNode t.reverse [a]
    simp only [List.reverse_cons, List.cons.sizeOf_spec, List.nil.sizeOf_spec] at h ⊢
    omega

mutual

/-- Embedding of `Parser.scanNode(node, false)`: every recursive call in
the source passes `isForRoot = false`, and with `isForRoot = false` the
method never touches `this.nodesRoot`, so the recursion is the pure
function of the node modelled here.  The `switch`'s cases are translated
one to one; node kinds outside the `switch` leave `svNode` `undefined`
(`none`).  The literal cases call the `SVLiteral` constructor with a value
whose `typeof` matches the declared kind, so its assertion passes (see
`SVLiteral.construct_matching` below); the constructed node is written
directly. -/
def scanChild (globals : List String) : Node → Option SVNode
  | .stringLit v => some (.literal "string" (.str v))
  | .numericLit v => some (.literal "number" (.num v))
  | .booleanLit v => some (.literal "boolean" (.bool v))
  | .binaryExpr l r operator =>
    some (.binaryExpression (scanChild globals l) (scanChild globals r) operator)
  | .logicalExpr l r operator =>
    some (.logicalExpression (scanChild globals l) (scanChild globals r) operator)
  | .unaryExpr a operator =>
    some (.unaryExpression (scanChild globals a) operator)
  | .arrayExpr elements =>
    some (.arrayExpression (scanElems globals elements.reverse))
  | .exprStmt e =>
    (fun _ => none) (scanChild globals e)
  | .identifier name => some (.identifier name (globals.contains name))
  | .varDecl kind declarations =>
    some (.variableDefinition (scanDecls globals kind declarations))
  | .unsupported _ => none
termination_by n => sizeOf n
decreasing_by all_goals simp_wf <;> ((try rw [sizeOfReverseNode]); omega)

/-- The `for(const element of elements)` loop of the `ArrayExpression`
case: each element is scanned as a non-root child and pushed (through the
unchecked `!`, hence `Option`). -/
def scanElems (globals : List String) : List Node → List (Option SVNode)
  | [] => []
  | e :: rest => scanChild globals e :: scanElems globals rest
termination_by l => sizeOf l

/-- The `for(const declarator of node.declarations)` loop of the
`VariableDeclaration` case: non-`Identifier` patterns are skipped
(`continue`), and a kept declarator contributes
`{name, constant: kind === "const", value: init ? scan(init) : undefined}`. -/
def scanDecls (globals : List String) (kind : String) :
    List (Pat × Option Node) → List (String × Bool × Option SVNode)
  | [] => []
  | (pat, init) :: rest =>
    match pat with
    | .ident name =>
      (name, kind == "const",
        match init with
        | some i => scanChild globals i
        | none => none) :: scanDecls globals kind rest
    | .other => scanDecls globals kind rest
termination_by l => sizeOf l

end

/-- Embedding of `Parser.scanNode(node, isForRoot)` including its effect
on `this.nodesRoot`: the scanned node (computed by `scanChild`, see its
doc comment) is appended to `nodesRoot` exactly when it is defined and
`isForRoot` holds.  Returns the scan result and the updated root list. -/
def Parser.scanNode (globals : List String) (node : Node) (isForRoot : Bool)
    (nodesRoot : List SVNode) : Option SVNode × List SVNode :=
  let svNode := scanChild globals node
  match svNode, isForRoot with
  | some v, true => (svNode, nodesRoot ++ [v])
  | _, _ => (svNode, nodesRoot)

/-- Embedding of the statement loop of `Parser.parse`: each node of
`tree.program.body` is scanned with `isForRoot = true`, and the final
`this.nodesRoot` is returned.  The `globals` set is the result of the
`traverse` pre-pass, an external scope-analysis collaborator, so it is a
parameter here. -/
def Parser.parse (globals : List String) (body : List Node) : List SVNode :=
  body.foldl (fun nodesRoot n => (Parser.scanNode globals n true nodesRoot).2) []

mutual

/-- State of a source-tree node after `Parser.scanNode` has visited it.
The scan's only effect on the source tree is
`const elements = node.elements.reverse();` in the `ArrayExpression` case,
which reverses the element array of the visited node in place; the
function records, case by case, which children the scan visits (the
default case and skipped declarators are never visited, so they are left
untouched). -/
def scanMut : Node → Node
  | .stringLit v => .stringLit v
  | .numericLit v => .numericLit v
  | .booleanLit v => .booleanLit v
  | .binaryExpr l r operator => .binaryExpr (scanMut l) (scanMut r) operator
  | .logicalExpr l r operator => .logicalExpr (scanMut l) (scanMut r) operator
  | .unaryExpr a operator => .unaryExpr (scanMut a) operator
  | .arrayExpr elements => .arrayExpr (scanMutElems elements.reverse)
  | .exprStmt e => .exprStmt (scanMut e)
  | .identifier name => .identifier name
  | .varDecl kind declarations => .varDecl kind (scanMutDecls declarations)
  | .unsupported t => .unsupported t
termination_by n => sizeOf n
decreasing_by all_goals simp_wf <;> ((try rw [sizeOfReverseNode]); omega)

/-- Post-scan state of the (already reversed) element list of an
`ArrayExpression`: each element is visited in order. -/
def scanMutElems : List Node → List Node
  | [] => []
  | e :: rest => scanMut e :: scanMutElems rest
termination_by l => sizeOf l

/-- Post-scan state of a `VariableDeclaration`'s declarator list: a kept
declarator's initializer is visited (when present); a skipped declarator
is untouched. -/
def scanMutDecls : List (Pat × Option Node) → List (Pat × Option Node)
  | [] => []
  | (pat, init) :: rest =>
    match pat with
    | .ident name =>
      (Pat.ident name,
        match init with
        | some i => some (scanMut i)
        | none => none) :: scanMutDecls rest
    | .other => (Pat.other, init) :: scanMutDecls rest
termination_by l => sizeOf l

end

mutual

/-- Does the source tree contain an `ArrayExpression` node (itself or in a
position of which it is built)? -/
def hasArrayExpr : Node → Bool
  | .stringLit _ => false
  | .numericLit _ => false
  | .booleanLit _ => false
  | .binaryExpr l r _ => hasArrayExpr l || hasArrayExpr r
  | .logicalExpr l r _ => hasArrayExpr l || hasArrayExpr r
  | .unaryExpr a _ => hasArrayExpr a
  | .arrayExpr _ => true
  | .exprStmt e => hasArrayExpr e
  | .identifier _ => false
  | .varDecl _ declarations => hasArrayExprDecls declarations
  | .unsupported _ => false
termination_by n => sizeOf n

/-- Does some declarator of a declaration statement contain an
`ArrayExpression` (in its initializer)? -/
def hasArrayExprDecls : List (Pat × Option Node) → Bool
  | [] => false
  | (_, some i) :: rest => hasArrayExpr i || hasArrayExprDecls rest
  | (_, none) :: rest => hasArrayExprDecls rest
termination_by l => sizeOf l

end

/-- Run a sequence of `defineVariable` operations (name, kind, constant)
on a scope, stopping at the first fatal failure; returns the final scope
together with the ordinal ids of the bindings created, in creation
order. -/
def runDefines : SVScope → List (String × String × Bool) → Except String (SVScope × List Nat)
  | s, [] => .ok (s, [])
  | s, (name, kind, constant) :: rest =>
    match s.defineVariable name kind constant with
    | .error e => .error e
    | .ok (d, s') =>
      match runDefines s' rest with
      | .error e => .error e
      | .ok (s'', ids) => .ok (s'', d.id :: ids)

/-- Did the modelled operation complete without a fatal failure? -/
def isOkE {α : Type} : Except String α → Bool
  | .ok _ => true
  | .error _ => false

/-! ## Lemmas about the transformation pass -/

/-- The element loop of the `ArrayExpression` case scans each element in
order. -/
theorem scanElemsEqMap (g : List String) (l : List Node) :
    scanElems g l = l.map (scanChild g) := by
  induction l with
  | nil => simp [scanElems]
  | cons e rest ih => simp [scanElems, ih]

/-- The declarator loop keeps exactly the identifier-pattern declarators,
in order, and transforms each kept initializer. -/
theorem scanDeclsEqFilterMap (g : List String) (kind : String)
    (l : List (Pat × Option Node)) :
    scanDecls g kind l = l.filterMap (fun d =>
      match d.1 with
      | .ident name => some (name, kind == "const", d.2.bind (scanChild g))
      | .other => none) := by
  induction l with
  | nil => simp [scanDecls]
  | cons d rest ih =>
    obtain ⟨pat, init⟩ := d
    cases pat with
    | ident name =>
      cases init <;> simp [scanDecls, ih, Option.bind]
    | other => simp [scanDecls, ih]

/-- Post-scan states of the elements of an array: each element of the
(already reversed) list is visited in order. -/
theorem scanMutElemsEqMap (l : List Node) :
    scanMutElems l = l.map scanMut := by
  induction l with
  | nil => simp [scanMutElems]
  | cons e rest ih => simp [scanMutElems, ih]

/-- An expression statement is scanned without any effect on the output
sequence: `scanChild` of the statement is `undefined`, so nothing is
pushed even at root level. -/
theorem scanNodeExprStmtEq (g : List String) (e : Node) (isForRoot : Bool)
    (root : List SVNode) :
    Parser.scanNode g (.exprStmt e) isForRoot root = (none, root) := by
  have h : scanChild g (.exprStmt e) = none := by simp [scanChild]
  simp [Parser.scanNode, h]

/-- A node of a kind outside the dispatch set is scanned without any
effect on the output sequence. -/
theorem scanNodeUnsupportedEq (g : List String) (tag : String)
    (isForRoot : Bool) (root : List SVNode) :
    Parser.scanNode g (.unsupported tag) isForRoot root = (none, root) := by
  have h : scanChild g (.unsupported tag) = none := by simp [scanChild]
  simp [Parser.scanNode, h]

/-! ## Claims about the transformation pass -/

/-- C4: for every source array expression the pass produces an
`ArrayExpression` whose element sequence is the transformed elements in
the reverse of source order; in particular `[1, 2, 3]` is transformed to
an `ArrayExpression` with elements `[3, 2, 1]`. -/
theorem scanArrayReversesElements :
    (∀ (g : List String) (es : List Node),
        scanChild g (.arrayExpr es)
          = some (.arrayExpression (es.reverse.map (scanChild g)))) ∧
    (∀ (g : List String),
        Parser.parse g [.arrayExpr [.numericLit 1, .numericLit 2, .numericLit 3]]
          = [.arrayExpression [some (.literal "number" (.num 3)),
              some (.literal "number" (.num 2)),
              some (.literal "number" (.num 1))]]) := by
  constructor
  · intro g es
    simp [scanChild, scanElemsEqMap]
  · intro g
    simp [Parser.parse, Parser.scanNode, scanChild, scanElems]

/-- C5: a bare expression statement contributes zero entries to the output
sequence: scanning it appends nothing to `nodesRoot` (whatever the root
flag), and a program with such a statement produces the same output
sequence as the program without it. -/
theorem exprStmtContributesNothing :
    (∀ (g : List String) (e : Node) (isForRoot : Bool) (root : List SVNode),
        Parser.scanNode g (.exprStmt e) isForRoot root = (none, root)) ∧
    (∀ (g : List String) (e : Node) (body1 body2 : List Node),
        Parser.parse g (body1 ++ .exprStmt e :: body2)
          = Parser.parse g (body1 ++ body2)) := by
  refine ⟨scanNodeExprStmtEq, ?_⟩
  intro g e body1 body2
  simp [Parser.parse, List.foldl_append, List.foldl_cons, scanNodeExprStmtEq]

/-- C8: a declaration statement becomes one `VariableDefinition` node
keeping exactly the identifier-pattern declarators, with
`constant = (kind == "const")` and the transformed initializer (absent
when there is none); `let a = 1, b;` gives exactly the two entries
`("a", false, Literal 1)` and `("b", false, none)`, and a skipped
non-identifier declarator between them does not disturb its siblings. -/
theorem varDeclKeepsIdentifierDeclarators :
    (∀ (g : List String) (kind : String) (decls : List (Pat × Option Node)),
        scanChild g (.varDecl kind decls)
          = some (.variableDefinition (decls.filterMap (fun d =>
              match d.1 with
              | .ident name => some (name, kind == "const", d.2.bind (scanChild g))
              | .other => none)))) ∧
    (∀ (g : List String),
        Parser.parse g [.varDecl "let" [(.ident "a", some (.numericLit 1)), (.ident "b", none)]]
          = [.variableDefinition [("a", false, some (.literal "number" (.num 1))),
              ("b", false, none)]]) ∧
    (∀ (g : List String),
        Parser.parse g [.varDecl "let" [(.ident "a", some (.numericLit 1)),
              (.other, some (.numericLit 5)), (.ident "b", none)]]
          = [.variableDefinition [("a", false, some (.literal "number" (.num 1))),
              ("b", false, none)]]) := by
  refine ⟨?_, ?_, ?_⟩
  · intro g kind decls
    simp [scanChild, scanDeclsEqFilterMap]
  · intro g
    simp [Parser.parse, Parser.scanNode, scanChild, scanDecls]
  · intro g
    simp [Parser.parse, Parser.scanNode, scanChild, scanDecls]

/-- C9: a node of a kind outside the supported dispatch set produces no
output node and no failure (the scan is a total function returning
`none` on it), and a statement list containing such a node transforms to
exactly the output of the same list without it. -/
theorem unsupportedKindsSilentlySkipped :
    (∀ (g : List String) (tag : String) (isForRoot : Bool) (root : List SVNode),
        Parser.scanNode g (.unsupported tag) isForRoot root = (none, root)) ∧
    (∀ (g : List String) (tag : String) (body1 body2 : List Node),
        Parser.parse g (body1 ++ .unsupported tag :: body2)
          = Parser.parse g (body1 ++ body2)) := by
  refine ⟨scanNodeUnsupportedEq, ?_⟩
  intro g tag body1 body2
  simp [Parser.parse, List.foldl_append, List.foldl_cons, scanNodeUnsupportedEq]

/-- C10 counterexample: the tree `[1]` (a one-element array literal)
contains an array expression, yet its post-transformation state equals its
original state, because reversing a one-element array in place changes
nothing. -/
theorem scanMutSingletonArrayUnchanged :
    hasArrayExpr (.arrayExpr [.numericLit 1]) = true ∧
    scanMut (.arrayExpr [.numericLit 1]) = .arrayExpr [.numericLit 1] := by
  constructor
  · simp [hasArrayExpr]
  · simp [scanMut, scanMutElems]

/-- C10 (amended): transforming an array expression reverses the visited
node's element array in place, so the node is left different from its
original state exactly when the recursively transformed reversed element
list differs from the original one; in particular `[1, 2, 3]` is mutated. -/
theorem scanMutArrayReversesInPlace :
    (∀ (es : List Node),
        scanMut (.arrayExpr es) = .arrayExpr es ↔ es.reverse.map scanMut = es) ∧
    scanMut (.arrayExpr [.numericLit 1, .numericLit 2, .numericLit 3])
      ≠ .arrayExpr [.numericLit 1, .numericLit 2, .numericLit 3] := by
  constructor
  · intro es
    simp [scanMut, scanMutElemsEqMap]
  · intro h
    simp [scanMut, scanMutElems] at h

/-! ## Lemmas about the scope model -/

/-- Reduction of the `vars` accessor on a constructed scope. -/
theorem SVScope.vars_mk (i : Nat) (p : Option SVScope) (v : VarMap) :
    (SVScope.mk i p v).vars = v := rfl

/-- Membership in the map after appending one fresh entry. -/
theorem mapHasAppendSingle (m : VarMap) (k k' : String) (v : SVScopeDefinition) :
    mapHas (m ++ [(k, v)]) k' = (mapHas m k' || k == k') := by
  simp [mapHas, List.any_append]

/-- Defining a fresh name always succeeds and appends the new binding,
whose id is the current number of bound names. -/
theorem defineVariableFresh (s : SVScope) (name kind : String) (constant : Bool)
    (h : mapHas s.vars name = false) :
    s.defineVariable name kind constant =
      .ok (⟨mapSize s.vars, kind, constant, s.id⟩,
           .mk s.id s.parent
             (s.vars ++ [(name, ⟨mapSize s.vars, kind, constant, s.id⟩)])) := by
  simp [SVScope.defineVariable, mapSet, h]

/-- Chained lookup is the first match walking the parent chain outward
from the current scope, and the fatal "is not defined." failure when the
chain is exhausted. -/
theorem getInParentRootEqChain : ∀ (s : SVScope) (name : String),
    s.getVariableInParentRoot name
      = (match (chainScopes s).find? (fun t => t.hasVariable name) with
         | some t => t.getVariable name
         | none => .error (name ++ " is not defined.")) := by
  intro s name
  induction s, name using SVScope.getVariableInParentRoot.induct with
  | case1 i parent vars name h =>
    rw [SVScope.getVariableInParentRoot.eq_def, chainScopes.eq_def]
    simp [h, List.find?_cons]
  | case2 i vars name p h ih =>
    simp only [Bool.not_eq_true] at h
    rw [SVScope.getVariableInParentRoot.eq_def, chainScopes.eq_def]
    simpa [h, List.find?_cons] using ih
  | case3 i vars name h =>
    simp only [Bool.not_eq_true] at h
    rw [SVScope.getVariableInParentRoot.eq_def, chainScopes.eq_def]
    simp [h, List.find?_cons]

/-- A run of defines whose names are pairwise distinct and all fresh for
the starting scope succeeds and hands out the consecutive ids
`size, size + 1, ...`. -/
theorem runDefinesFresh (ops : List (String × String × Bool)) :
    ∀ (s : SVScope),
      (ops.map (fun op => op.1)).Nodup →
      (∀ n ∈ ops.map (fun op => op.1), mapHas s.vars n = false) →
      (runDefines s ops).map Prod.snd
        = .ok (List.range' (mapSize s.vars) ops.length) := by
  induction ops with
  | nil =>
    intro s _ _
    rfl
  | cons op rest ih =>
    obtain ⟨name, kind, constant⟩ := op
    intro s hnd hfresh
    have hn : mapHas s.vars name = false := hfresh name (by simp)
    have hnd1 : name ∉ rest.map (fun op => op.1) := by
      simp only [List.map_cons, List.nodup_cons] at hnd
      exact hnd.1
    have hnd2 : (rest.map (fun op => op.1)).Nodup := by
      simp only [List.map_cons, List.nodup_cons] at hnd
      exact hnd.2
    have hrest : ∀ n ∈ rest.map (fun op => op.1),
        mapHas (SVScope.mk s.id s.parent
          (s.vars ++ [(name, ⟨mapSize s.vars, kind, constant, s.id⟩)])).vars n
          = false := by
      intro n hnmem
      have h1 : mapHas s.vars n = false := hfresh n (by simp [hnmem])
      have h2 : ¬(name = n) := fun hEq => hnd1 (hEq ▸ hnmem)
      simp [SVScope.vars_mk, mapHasAppendSingle, h1, h2]
    have ihx := ih (SVScope.mk s.id s.parent
        (s.vars ++ [(name, ⟨mapSize s.vars, kind, constant, s.id⟩)])) hnd2 hrest
    have hsz : mapSize (SVScope.mk s.id s.parent
        (s.vars ++ [(name, ⟨mapSize s.vars, kind, constant, s.id⟩)])).vars
        = mapSize s.vars + 1 := by
      simp [mapSize, SVScope.vars_mk]
    rw [hsz] at ihx
    simp only [runDefines, defineVariableFresh s name kind constant hn]
    cases hr : runDefines (SVScope.mk s.id s.parent
        (s.vars ++ [(name, ⟨mapSize s.vars, kind, constant, s.id⟩)])) rest with
    | error e =>
      rw [hr] at ihx
      simp [Except.map] at ihx
    | ok r =>
      obtain ⟨s'', ids⟩ := r
      rw [hr] at ihx
      simp only [Except.map, Except.ok.injEq] at ihx
      simp only [Except.map, List.length_cons]
      rw [List.range'_succ, ihx]

/-! ## Claims about the scope model -/

/-- C1: on the three-level chain in which `x` is bound only in the
outermost scope, `hasVariableInParentRoot` from the innermost scope
returns `false` although `x` is bound in an ancestor: the code consults
only the immediate parent (`this.parent.hasVariable`), unlike its sibling
`getVariableInParentRoot`, which does find the binding on the same
chain. -/
theorem hasVariableInParentRootMissesGrandparent :
    (SVScope.mk 2 (some (.mk 1 (some (.mk 0 none [("x", ⟨0, "let", false, 0⟩)])) []))
        []).hasVariableInParentRoot "x" = false ∧
    (SVScope.mk 1 (some (.mk 0 none [("x", ⟨0, "let", false, 0⟩)]))
        []).hasVariableInParentRoot "x" = true ∧
    (SVScope.mk 2 (some (.mk 1 (some (.mk 0 none [("x", ⟨0, "let", false, 0⟩)])) []))
        []).getVariableInParentRoot "x" = .ok ⟨0, "let", false, 0⟩ :=
  ⟨rfl, rfl, rfl⟩

/-- C2 counterexample: with `x` already bound under kind `let`, defining
`x` again under kind `var` succeeds (the assertion checks only the NEW
kind), although the claim requires every combination other than var/var
to fail fatally. -/
theorem defineLetThenVarSucceeds :
    (SVScope.mk 0 none []).defineVariable "x" "let" false
      = .ok (⟨0, "let", false, 0⟩, .mk 0 none [("x", ⟨0, "let", false, 0⟩)]) ∧
    (SVScope.mk 0 none [("x", ⟨0, "let", false, 0⟩)]).defineVariable "x" "var" true
      = .ok (⟨1, "var", true, 0⟩, .mk 0 none [("x", ⟨1, "var", true, 0⟩)]) :=
  ⟨rfl, rfl⟩

/-- C2 (amended): defining a name succeeds precisely when the name is not
yet bound in this scope or the NEW kind is `var` — the existing binding's
kind is never consulted — and in every other case it fails fatally with
the "is already defined." redeclaration error. -/
theorem defineVariableOkIff (s : SVScope) (name kind : String) (constant : Bool) :
    (isOkE (s.defineVariable name kind constant) = true
       ↔ (mapHas s.vars name = false ∨ kind = "var")) ∧
    (isOkE (s.defineVariable name kind constant) = false
       ↔ s.defineVariable name kind constant
           = .error (name ++ " is already defined.")) := by
  cases h1 : mapHas s.vars name with
  | false =>
    constructor
    · simp [SVScope.defineVariable, h1, isOkE]
    · simp [SVScope.defineVariable, h1, isOkE]
  | true =>
    by_cases h2 : kind = "var"
    · subst h2
      constructor
      · simp [SVScope.defineVariable, h1, isOkE]
      · simp [SVScope.defineVariable, h1, isOkE]
    · constructor
      · simp [SVScope.defineVariable, h1, h2, isOkE]
      · simp [SVScope.defineVariable, h1, h2, isOkE]

/-- C3 counterexample: in one scope, define `x` (var), `y` (var), redefine
`x` (var/var, permitted), then define `z` (var).  The redefinition gets id
2 (`Map.set` replaces, so `size` stays 2), and `z` then also gets id 2:
two distinct names bound in the same scope share an id, and the sequence
of created ids 0, 1, 2, 2 is not monotonically increasing. -/
theorem defineVariableIdCollision :
    (SVScope.mk 0 none []).defineVariable "x" "var" false
      = .ok (⟨0, "var", false, 0⟩, .mk 0 none [("x", ⟨0, "var", false, 0⟩)]) ∧
    (SVScope.mk 0 none [("x", ⟨0, "var", false, 0⟩)]).defineVariable "y" "var" false
      = .ok (⟨1, "var", false, 0⟩,
             .mk 0 none [("x", ⟨0, "var", false, 0⟩), ("y", ⟨1, "var", false, 0⟩)]) ∧
    (SVScope.mk 0 none [("x", ⟨0, "var", false, 0⟩), ("y", ⟨1, "var", false, 0⟩)]).defineVariable "x" "var" false
      = .ok (⟨2, "var", false, 0⟩,
             .mk 0 none [("x", ⟨2, "var", false, 0⟩), ("y", ⟨1, "var", false, 0⟩)]) ∧
    (SVScope.mk 0 none [("x", ⟨2, "var", false, 0⟩), ("y", ⟨1, "var", false, 0⟩)]).defineVariable "z" "var" false
      = .ok (⟨2, "var", false, 0⟩,
             .mk 0 none [("x", ⟨2, "var", false, 0⟩), ("y", ⟨1, "var", false, 0⟩),
                         ("z", ⟨2, "var", false, 0⟩)]) ∧
    ("x" ≠ "z") := by
  refine ⟨rfl, rfl, rfl, rfl, by decide⟩

/-- C3 (amended): each successful define assigns as ordinal id the number
of names bound in the scope at definition time (`Map.size`); a run of
defines with pairwise distinct fresh names therefore receives the dense,
monotonically increasing ids `size, size + 1, ...` — in particular
`0, 1, 2, ...` starting from an empty scope — but after a permitted
var/var redefinition the count does not grow, so later ids may repeat and
two distinct names may share an id (see the counterexample). -/
theorem defineVariableIdIsCount :
    (∀ (s : SVScope) (name kind : String) (constant : Bool)
        (d : SVScopeDefinition) (s' : SVScope),
        s.defineVariable name kind constant = .ok (d, s') →
        d.id = mapSize s.vars) ∧
    (∀ (ops : List (String × String × Bool)) (s : SVScope),
        (ops.map (fun op => op.1)).Nodup →
        (∀ n ∈ ops.map (fun op => op.1), mapHas s.vars n = false) →
        (runDefines s ops).map Prod.snd
          = .ok (List.range' (mapSize s.vars) ops.length)) := by
  constructor
  · intro s name kind constant d s' h
    simp only [SVScope.defineVariable] at h
    split at h
    · simp only [Except.ok.injEq, Prod.mk.injEq] at h
      rw [← h.1]
    · exact absurd h (by simp)
  · exact fun ops s hnd hfresh => runDefinesFresh ops s hnd hfresh

/-- C3 witness: a concrete fresh run from the empty scope gets the ids
0, 1, 2, and a concrete successful define's id is the scope's size. -/
theorem defineVariableIdIsCountWitness :
    ((runDefines (.mk 0 none [])
        [("a", "let", false), ("b", "const", true), ("c", "var", false)]).map Prod.snd
      = .ok (List.range' 0 3)) ∧
    ((⟨0, "let", false, 0⟩ : SVScopeDefinition).id
      = mapSize (SVScope.mk 0 none []).vars) :=
  ⟨defineVariableIdIsCount.2
      [("a", "let", false), ("b", "const", true), ("c", "var", false)]
      (.mk 0 none []) (by simp) (by intro n _; rfl),
   defineVariableIdIsCount.1 (.mk 0 none []) "a" "let" false
      ⟨0, "let", false, 0⟩ (.mk 0 none [("a", ⟨0, "let", false, 0⟩)]) rfl⟩

/-- C6: chained lookup returns the first binding found walking the chain
from the current scope outward through the ancestors (so a name defined
only in the outermost scope of a three-level chain is found from the
innermost scope), and a name bound nowhere in the chain is the fatal
"is not defined." failure. -/
theorem lookupChainWalksAncestors :
    (∀ (s : SVScope) (name : String),
        s.getVariableInParentRoot name
          = (match (chainScopes s).find? (fun t => t.hasVariable name) with
             | some t => t.getVariable name
             | none => .error (name ++ " is not defined."))) ∧
    ((SVScope.mk 2 (some (.mk 1 (some (.mk 0 none [("y", ⟨0, "const", true, 0⟩)])) []))
        []).getVariableInParentRoot "y" = .ok ⟨0, "const", true, 0⟩) ∧
    ((SVScope.mk 2 (some (.mk 1 (some (.mk 0 none [("y", ⟨0, "const", true, 0⟩)])) []))
        []).getVariableInParentRoot "z" = .error "z is not defined.") :=
  ⟨getInParentRootEqChain, rfl, rfl⟩

/-- C7: constructing a Literal with a declared kind in {string, number,
boolean} succeeds, preserving the value and the declared kind, exactly
when the runtime type of the value agrees with the kind; on any
disagreement the validation assertion fails fatally and no node is
produced. -/
theorem literalConstructionTypeChecked :
    ∀ (t : String), (t = "string" ∨ t = "number" ∨ t = "boolean") →
      ∀ (v : JSValue),
        (typeofJS v = t → SVLiteral.construct t v = .ok (.literal t v)) ∧
        (typeofJS v ≠ t → isOkE (SVLiteral.construct t v) = false) := by
  intro t ht v
  rcases ht with rfl | rfl | rfl <;> cases v <;>
    constructor <;> intro h <;>
      simp_all [SVLiteral.construct, typeofJS, isOkE]

/-- C7 witness: a number value with declared kind "number" round-trips,
and the same value with declared kind "string" is rejected. -/
theorem literalConstructionTypeCheckedWitness :
    SVLiteral.construct "number" (.num 5) = .ok (.literal "number" (.num 5)) ∧
    isOkE (SVLiteral.construct "string" (.num 5)) = false :=
  ⟨(literalConstructionTypeChecked "number" (Or.inr (Or.inl rfl)) (.num 5)).1 rfl,
   (literalConstructionTypeChecked "string" (Or.inl rfl) (.num 5)).2 (by decide)⟩

end StackVM
